import Mathlib

/-!
Verification of the transport/protocol layer of an OBD-II diagnostic tool
against its specification.  Each C function relevant to the checked claims
is shallowly embedded as an executable Lean definition; machine integers
are modelled as `Nat` with explicit `% 2^w` where the C type wraps, and
floating-point parameter conversions (all of which are exact on the byte
ranges involved) are modelled over `ℚ`.
-/

namespace Efi

/-! ## DTC text formatting -/

/-- One uppercase hexadecimal digit, as produced by printf %X. -/
def hexDigit (n : Nat) : Char :=
  if n < 10 then Char.ofNat (48 + n) else Char.ofNat (55 + n)

/-- Two-digit uppercase hexadecimal rendering, printf %02X (for values < 256). -/
def hex2 (n : Nat) : String :=
  String.mk [hexDigit (n / 16 % 16), hexDigit (n % 16)]

/-- Four-digit uppercase hexadecimal rendering, printf %04X (for values < 65536). -/
def hex4 (n : Nat) : String :=
  String.mk [hexDigit (n / 4096 % 16), hexDigit (n / 256 % 16),
             hexDigit (n / 16 % 16), hexDigit (n % 16)]

/-- Letter table indexed by the top two bits of the raw DTC code, the
array of strings P C B U used by format_dtc (unnamed/part_004) and the
string literal indexed in dtc_read_current (src/dtc_handler.c). -/
def dtcLetter (t : Nat) : Char :=
  if t = 0 then 'P' else if t = 1 then 'C' else if t = 2 then 'B' else 'U'

/-- format_dtc (unnamed/part_004): sprintf of the letter for bits 7..6 of
the first byte, then %02X of the first byte masked to its low 6 bits,
then %02X of the second byte, into a 6-byte field. -/
def format_dtc (d0 d1 : Nat) : String :=
  String.singleton (dtcLetter ((d0 >>> 6) &&& 3)) ++ hex2 (d0 &&& 0x3F) ++ hex2 d1

/-- The type letter computed by the if-chain over raw_code & 0xC000 in
diag_read_dtcs (unnamed/part_002). -/
def diag_dtc_type (raw : Nat) : Char :=
  if raw &&& 0xC000 = 0x4000 then 'C'
  else if raw &&& 0xC000 = 0x8000 then 'B'
  else if raw &&& 0xC000 = 0xC000 then 'U'
  else 'P'

/-- The string actually stored by diag_read_dtcs (unnamed/part_002):
snprintf(dtc->code, sizeof(dtc->code), "%c%04X", type, raw & 0x3FFF)
where the field is char code[5], so snprintf keeps only the first
sizeof-1 = 4 characters of the five it formats. -/
def diag_dtc_code_stored (raw : Nat) : String :=
  (String.singleton (diag_dtc_type raw) ++ hex4 (raw &&& 0x3FFF)).take 4

/-! ## Mode 03 decoding -/

/-- Parse loop of diag_read_dtcs (unnamed/part_002): walk the response two
bytes at a time while i < msg_count, skip a 0x0000 pair, and store
(raw_code, formatted code) for each non-zero pair.  The fuel argument
makes the i += 2 loop structurally recursive; it is instantiated with
msg_count, which bounds the iteration count. -/
def diag_parse_loop : Nat → Nat → Nat → List Nat → List (Nat × String)
  | 0, _, _, _ => []
  | fuel + 1, i, msgCount, resp =>
    if i < msgCount then
      let raw := ((resp.getD i 0) <<< 8) ||| resp.getD (i + 1) 0
      if raw = 0 then diag_parse_loop fuel (i + 2) msgCount resp
      else (raw, diag_dtc_code_stored raw) :: diag_parse_loop fuel (i + 2) msgCount resp
    else []

/-- diag_read_dtcs (unnamed/part_002), parsing phase. -/
def diag_read_dtcs_parse (resp : List Nat) (msgCount : Nat) : List (Nat × String) :=
  diag_parse_loop msgCount 0 msgCount resp

/-- Parse loop of dtc_read_current (src/dtc_handler.c): every two-byte
pair becomes an entry (no zero-pair skipping), with the code written by
sprintf "%c%02X%02X" from the letter table, buffer[i] & 0x3F and
buffer[i+1]; at most MAX_DTC_COUNT = 20 entries. -/
def dtc_parse_loop : Nat → Nat → Nat → Nat → List Nat → List String
  | 0, _, _, _, _ => []
  | fuel + 1, i, len, count, buf =>
    if i < len ∧ count < 20 then
      (String.singleton (dtcLetter ((buf.getD i 0 >>> 6) &&& 3)) ++
        hex2 (buf.getD i 0 &&& 0x3F) ++ hex2 (buf.getD (i + 1) 0)) ::
        dtc_parse_loop fuel (i + 2) len (count + 1) buf
    else []

/-- dtc_read_current (src/dtc_handler.c), parsing phase. -/
def dtc_read_current_codes (buf : List Nat) (len : Nat) : List String :=
  dtc_parse_loop len 0 len 0 buf

/-! ## PID value conversion -/

/-- calculate_rpm (unnamed/part_003): ((msb * 256.0f) + lsb) / 4.0f.  All
inputs are bytes, so the float arithmetic is exact and is modelled over ℚ. -/
def calculate_rpm (msb lsb : Nat) : ℚ :=
  ((msb : ℚ) * 256 + (lsb : ℚ)) / 4

/-- process_pid_data (unnamed/part_004): per-PID conversion switch used by
the live monitoring task. -/
def process_pid_data (pid : Nat) (data : List Nat) : ℚ :=
  let d0 : ℚ := (data.getD 0 0 : Nat)
  let d1 : ℚ := (data.getD 1 0 : Nat)
  if pid = 0x04 then d0 * 100 / 255
  else if pid = 0x05 then d0 - 40
  else if pid = 0x0C then (d0 * 256 + d1) / 4
  else if pid = 0x0D then d0
  else if pid = 0x0F then d0 - 40
  else if pid = 0x11 then d0 * 100 / 255
  else d0

/-- A mode/pid/data response record, after obd2_core.h PID_Response. -/
structure PIDResponse where
  mode : Nat
  pid : Nat
  data : List Nat
  deriving Repr, DecidableEq

/-- The response produced by obd2_receive_response
(src/system_diagnostics.c): mode 0x41, PID 0x0C, data 0x20 0x00 0x00 0x00. -/
def obd2_sim_response : PIDResponse :=
  ⟨0x41, 0x0C, [0x20, 0x00, 0x00, 0x00]⟩

/-! ## Mode 04 (clear DTCs) -/

/-- diag_clear_dtcs (unnamed/part_002): send the Mode 04 request, wait for
a confirmation response, and succeed only when its first data byte is
0x44.  The environment is the success of the send and receive calls and
the first data byte of the received confirmation. -/
def diag_clear_dtcs (sendOk recvOk : Bool) (respData0 : Nat) : Int :=
  if !sendOk then -1
  else if !recvOk then -1
  else if respData0 = 0x44 then 0 else -1

/-- dtc_clear_all (src/dtc_handler.c): issue write_pid(0x04, ...) and
return its status.  The confirmation byte the ECU would send is passed in
to state properties about it, but the function never reads a response, so
the result cannot depend on it. -/
def dtc_clear_all (deviceOk writeOk : Bool) (_respData0 : Nat) : Int :=
  if !deviceOk then -1
  else if !writeOk then -1
  else 0

/-! ## KWP2000 / ISO 9141 checksum and decode -/

/-- calculate_checksum (src/system_diagnostics.c): a uint8_t accumulator
summed over the buffer, i.e. addition mod 256 at every step. -/
def calculate_checksum (data : List Nat) : Nat :=
  data.foldl (fun s b => (s + b) % 256) 0

/-- kwp_receive_response (src/protocol_kwp2000.c): after a successful
J2534_ReadMsgs, the only validation is the response-format test
buffer[0] != (0x40 | buffer[0]); on acceptance the bytes after the first
(msg_count - 1 of them) are copied out.  No checksum is recomputed. -/
def kwp_receive_response (readOk : Bool) (buffer : List Nat) : Option (List Nat) :=
  if !readOk then none
  else
    match buffer with
    | [] => none
    | b0 :: rest => if b0 ≠ (0x40 ||| b0) then none else some rest

/-! ## Protocol negotiation (src/system_diagnostics.c) -/

/-- The protocol-handler state of src/system_diagnostics.c (obd_state). -/
structure ObdState where
  initialized : Bool
  protocol : Nat
  baudrate : Nat
  flags : Nat
  retryCount : Nat
  deriving Repr, DecidableEq

/-- Retry loop of obd2_send_request (src/system_diagnostics.c): while
retries remain, a failed J2534_Connect retries, and a successful connect
formats and sends the request — returning success for protocols 6
(ISO 15765-4 CAN framing) and 3 (ISO 9141-2 framing) and failure for any
other protocol value (the switch default).  connectOk gives the outcome
of each connect attempt, indexed by remaining retries. -/
def obd2_send_loop (connectOk : Nat → Bool) (protocol : Nat) : Nat → Bool
  | 0 => false
  | r + 1 =>
    if connectOk r then
      if protocol = 6 then true
      else if protocol = 3 then true
      else false
    else obd2_send_loop connectOk protocol r

/-- obd2_send_request (src/system_diagnostics.c) for a non-null request:
it refuses outright while obd_state.initialized is unset, and otherwise
runs the retry loop. -/
def obd2_send_request_model (st : ObdState) (connectOk : Nat → Bool) : Bool :=
  if !st.initialized then false
  else obd2_send_loop connectOk st.protocol st.retryCount

/-- obd2_protocol_init (src/system_diagnostics.c): after loading the
J2534 library it clears obd_state, sets retry_count 3, then tries
protocol J2534_PROTOCOL_CAN = 5 at 500000 baud and, if that probe fails,
protocol 3 (ISO 9141-2) at 10400 baud, each probed by sending a Mode 01
PID 00 request through obd2_send_request; the first success sets
initialized and returns 0, and otherwise the function returns -1. -/
def obd2_protocol_init_model (prev : ObdState) (j2534Ok : Bool)
    (canConnect isoConnect : Nat → Bool) : Int × ObdState :=
  if !j2534Ok then (-1, prev)
  else
    let st1 : ObdState := ⟨false, 5, 500000, 0, 3⟩
    if obd2_send_request_model st1 canConnect then (0, {st1 with initialized := true})
    else
      let st2 := {st1 with protocol := 3, baudrate := 10400}
      if obd2_send_request_model st2 isoConnect then (0, {st2 with initialized := true})
      else (-1, st2)

/-! ## Safety-limit validation (src/sct_device.c) -/

/-- AFR target block of the SCT fuel-management tuning structure. -/
structure AfrTargets where
  idle : ℚ
  wot : ℚ

/-- Fuel-management tuning parameters checked by verify_fuel_parameters. -/
structure FuelManagement where
  volumetricEfficiency : List ℚ
  afrTargets : AfrTargets

/-- Boost safety thresholds (cut and resume). -/
structure BoostSafety where
  cutThreshold : ℚ
  resumeThreshold : ℚ

/-- Boost-control tuning parameters checked by verify_boost_parameters. -/
structure BoostControl where
  maxBoost : ℚ
  targetBoost : ℚ
  safety : BoostSafety

/-- Advanced tuning block read back from the device by sct_verify_tuning. -/
structure SCTAdvancedTuning where
  fuelManagement : FuelManagement
  boostControl : BoostControl

/-- verify_fuel_parameters (src/sct_device.c): reject any volumetric
efficiency entry outside [0, 2] and AFR targets outside their windows. -/
def verify_fuel_parameters (f : FuelManagement) : Int :=
  if f.volumetricEfficiency.any (fun v => decide (v < 0) || decide (2 < v)) then -1
  else if f.afrTargets.idle < 10 ∨ 20 < f.afrTargets.idle ∨
          f.afrTargets.wot < 10 ∨ 15 < f.afrTargets.wot then -1
  else 0

/-- verify_boost_parameters (src/sct_device.c): reject maxBoost above 60
or targetBoost above maxBoost, then reject any configuration whose cut
threshold is not strictly above its resume threshold. -/
def verify_boost_parameters (b : BoostControl) : Int :=
  if 60 < b.maxBoost ∨ b.maxBoost < b.targetBoost then -1
  else if b.safety.cutThreshold ≤ b.safety.resumeThreshold then -1
  else 0

/-- sct_verify_tuning (src/sct_device.c): read the advanced tuning block
(getOk is the outcome of that device read) and fail if either parameter
check fails. -/
def sct_verify_tuning (getOk : Bool) (t : SCTAdvancedTuning) : Int :=
  if !getOk then -1
  else if verify_fuel_parameters t.fuelManagement ≠ 0 ∨
          verify_boost_parameters t.boostControl ≠ 0 then -1
  else 0

/-- A concrete tuning block whose boost safety ordering is invalid: the
cut threshold 10 sits below the resume threshold 15. -/
def sctBadTuning : SCTAdvancedTuning :=
  ⟨⟨[1, 1, 1], ⟨13, 12⟩⟩, ⟨30, 20, ⟨10, 15⟩⟩⟩

/-! ## ISO-TP segmentation (unnamed/part_005) -/

/-- Consecutive-frame loop of can_iso_tp_send.  The C index variable is a
uint8_t, so the read offset into the payload advances mod 256; remaining
is a uint16_t and never wraps.  Each frame is modelled as its byte list
data[0..dlc).  fuel is instantiated with remaining, which bounds the
iteration count since every block moves at least one byte. -/
def iso_tp_cf_loop : Nat → Nat → Nat → Nat → List Nat → List (List Nat)
  | 0, _, _, _, _ => []
  | fuel + 1, remaining, index, seq, data =>
    if remaining = 0 then []
    else
      let block := min 7 remaining
      ((0x20 ||| (seq &&& 0x0F)) :: (data.drop index).take block) ::
        iso_tp_cf_loop fuel (remaining - block) ((index + block) % 256)
          ((seq + 1) &&& 0x0F) data

/-- can_iso_tp_send (unnamed/part_005): payloads over 4095 bytes are
rejected; payloads of at most 7 bytes go out as a single frame
[length, payload...]; longer payloads go out as a First Frame
[0x10 | lenHigh, lenLow, data0..5] followed by the consecutive frames. -/
def can_iso_tp_send (data : List Nat) : Option (List (List Nat)) :=
  let length := data.length
  if length > 4095 then none
  else if length ≤ 7 then some [length :: data]
  else
    some (((0x10 ||| ((length >>> 8) &&& 0x0F)) :: (length &&& 0xFF) :: data.take 6) ::
      iso_tp_cf_loop (length - 6) (length - 6) 6 1 data)

/-- Reassembly of the consecutive-frame payload bytes, following the
specification: sequence numbers must cycle 1..15,0,1..., and each frame
contributes the bytes after its PCI byte. -/
def iso_tp_cf_payloads : Nat → List (List Nat) → Option (List Nat)
  | _, [] => some []
  | seq, c :: cs =>
    if c.getD 0 0 = 0x20 ||| (seq % 16) then
      match iso_tp_cf_payloads (seq + 1) cs with
      | none => none
      | some rest => some (c.drop 1 ++ rest)
    else none

/-- Reassembly of an emitted frame sequence, modelled from the
specification: a single frame declares its payload length in its first
byte; a First Frame declares a 12-bit length, contributes its six data
bytes, and the consecutive frames contribute the remainder, which must
match the declared length exactly. -/
def iso_tp_reassemble (frames : List (List Nat)) : Option (List Nat) :=
  match frames with
  | [] => none
  | f :: rest =>
    let pci := f.getD 0 0
    if pci ≤ 7 then
      if rest.isEmpty then some ((f.drop 1).take pci) else none
    else if pci / 16 = 1 then
      let len := (pci % 16) * 256 + f.getD 1 0
      match iso_tp_cf_payloads 1 rest with
      | none => none
      | some tailBytes =>
        let full := f.drop 2 ++ tailBytes
        if full.length = len then some full else none
    else none

/-- A 258-byte payload: the longest multi-frame payload the uint8_t frame
index serializes correctly. -/
def isoTpGood : List Nat := List.replicate 257 5 ++ [9]

/-- A 259-byte payload whose final consecutive frame is built after the
uint8_t frame index has wrapped from 258 to 2. -/
def isoTpBad : List Nat := List.replicate 258 5 ++ [9]

/-! ## J2534 channel management (src/j2534_interface.c) -/

/-- Adapter state for the J2534 interface: whether the PassThru library
handle is loaded, the set of channels open on the device, the module's
current_channel variable (0 meaning none), and the device's next fresh
channel id (PassThru channel ids are positive). -/
structure J2534State where
  handleLoaded : Bool
  openChannels : List Nat
  currentChannel : Nat
  nextId : Nat
  deriving Repr, DecidableEq

/-- State before the library is loaded: j2534_handle NULL and
current_channel 0 (static zero initialisation). -/
def j2534_start : J2534State := ⟨false, [], 0, 1⟩

/-- The library-loading entry point of src/j2534_interface.c (dlopen plus
PassThruOpen): on success the handle is set, on failure it is cleared. -/
def j2534_load_library (st : J2534State) (ok : Bool) : Int × J2534State :=
  if ok then (0, {st with handleLoaded := true})
  else (-1, {st with handleLoaded := false})

/-- J2534_Disconnect (src/j2534_interface.c): fails without a loaded
handle; PassThruDisconnect succeeds exactly on an open channel, closing
it on the device; current_channel is reset only when the disconnected
channel is the current one. -/
def j2534_disconnect (st : J2534State) (ch : Nat) : Int × J2534State :=
  if !st.handleLoaded then (-1, st)
  else if ch ∈ st.openChannels then
    let st1 := {st with openChannels := st.openChannels.erase ch}
    if ch = st.currentChannel then (0, {st1 with currentChannel := 0}) else (0, st1)
  else (-1, st)

/-- J2534_Connect (src/j2534_interface.c): fails without a loaded handle;
if a channel is already current it is disconnected first; then
PassThruConnect (whose outcome is connectOk) opens a fresh positive
channel id on the device, which becomes current. -/
def j2534_connect (st : J2534State) (connectOk : Bool) : Int × J2534State :=
  if !st.handleLoaded then (-1, st)
  else
    let st1 := if st.currentChannel ≠ 0 then (j2534_disconnect st st.currentChannel).2 else st
    if !connectOk then (-1, st1)
    else
      let ch := st1.nextId
      (0, {st1 with openChannels := ch :: st1.openChannels, currentChannel := ch,
                    nextId := st1.nextId + 1})

/-- States of the adapter reachable through the J2534 interface calls. -/
inductive J2534Reachable : J2534State → Prop
  | start : J2534Reachable j2534_start
  | load : ∀ st ok, J2534Reachable st → J2534Reachable (j2534_load_library st ok).2
  | connect : ∀ st ok, J2534Reachable st → J2534Reachable (j2534_connect st ok).2
  | disconnect : ∀ st ch, J2534Reachable st → J2534Reachable (j2534_disconnect st ch).2

/-- Channel bookkeeping invariant: no open channel when current_channel
is 0, exactly the current channel open otherwise, and the current channel
is below the device's fresh-id counter. -/
def J2534Inv (st : J2534State) : Prop :=
  (st.currentChannel = 0 → st.openChannels = []) ∧
  (st.currentChannel ≠ 0 → st.openChannels = [st.currentChannel]) ∧
  st.currentChannel < st.nextId

/-! ## Circular log buffer (unnamed/part_003) -/

/-- LogBuffer from unnamed/part_003: capacity, size, head and tail
indices and the entry array, modelled as a function from positions. -/
structure LogBuffer where
  capacity : Nat
  size : Nat
  head : Nat
  tail : Nat
  entries : Nat → Nat

/-- log_init (unnamed/part_003): allocate and clear the indices. -/
def log_init (capacity : Nat) : LogBuffer :=
  ⟨capacity, 0, 0, 0, fun _ => 0⟩

/-- log_write (unnamed/part_003): store at head, advance head mod
capacity, then grow size if below capacity and otherwise advance tail mod
capacity (overwriting the oldest entry). -/
def log_write (buf : LogBuffer) (e : Nat) : LogBuffer :=
  let entries := fun i => if i = buf.head then e else buf.entries i
  let head := (buf.head + 1) % buf.capacity
  if buf.size < buf.capacity then
    { buf with entries := entries, head := head, size := buf.size + 1 }
  else
    { buf with entries := entries, head := head, tail := (buf.tail + 1) % buf.capacity }

/-- log_read (unnamed/part_003): fail on an empty buffer without touching
it, otherwise return the entry at tail and advance tail mod capacity. -/
def log_read (buf : LogBuffer) : Option (Nat × LogBuffer) :=
  if buf.size = 0 then none
  else some (buf.entries buf.tail,
    { buf with tail := (buf.tail + 1) % buf.capacity, size := buf.size - 1 })

/-- Abstract contents of the circular buffer, oldest first. -/
def logView (buf : LogBuffer) : List Nat :=
  (List.range buf.size).map (fun i => buf.entries ((buf.tail + i) % buf.capacity))

/-- Circular-buffer invariant: size bounded by capacity, indices in
range, and head positioned size slots past tail mod capacity. -/
def LogInv (buf : LogBuffer) : Prop :=
  buf.size ≤ buf.capacity ∧ buf.head < buf.capacity ∧ buf.tail < buf.capacity ∧
  buf.head = (buf.tail + buf.size) % buf.capacity

end Efi

namespace Efi

/-! ## Theorems -/

/-- Fold characterization of the wrapped additive checksum. -/
theorem calculate_checksum_foldl (l : List Nat) (s : Nat) :
    l.foldl (fun a b => (a + b) % 256) (s % 256) = (s + l.sum) % 256 := by
  induction l generalizing s with
  | nil => simp
  | cons x xs ih =>
    simp only [List.foldl_cons, List.sum_cons]
    rw [Nat.mod_add_mod]
    have := ih (s + x)
    rw [this]
    ring_nf

/-- Every hex digit emitted for an in-range value is an uppercase
hexadecimal character. -/
theorem hexDigit_mem_upper : ∀ n < 16, hexDigit n ∈ "0123456789ABCDEF".data := by
  decide

/-- format_dtc always produces exactly five characters: the letter plus
two two-digit hex fields. -/
theorem format_dtc_length (d0 d1 : Nat) : (format_dtc d0 d1).length = 5 := by
  simp [format_dtc, hex2, String.length, String.singleton]

/-- C2 (code_bug): format_dtc renders raw code 0x0123 as the full
five-character code "P0123" with the letter/hex rule, but diag_read_dtcs
stores only "P012": its snprintf is bounded by the 5-byte code field,
which cannot hold five characters plus the terminator. -/
theorem C2_dtc_format_truncation :
    format_dtc 0x01 0x23 = "P0123" ∧
    diag_dtc_code_stored 0x0123 = "P012" ∧
    (diag_dtc_code_stored 0x0123).length ≠ 5 := by
  decide

/-- C5 (code_bug): on the Mode 03 payload 01 23 00 00, diag_read_dtcs
skips the zero pair but stores the truncated code "P012", while
dtc_read_current formats the full code yet does not skip the 0x0000 pair
and produces a second entry "P0000"; neither path yields exactly one
entry "P0123" as the specification states. -/
theorem C5_mode03_decode_divergence :
    diag_read_dtcs_parse [0x01, 0x23, 0x00, 0x00] 4 = [(0x0123, "P012")] ∧
    dtc_read_current_codes [0x01, 0x23, 0x00, 0x00] 4 = ["P0123", "P0000"] := by
  decide

/-- C9 (confirmed): the decoded engine RPM is ((msb*256)+lsb)/4 for all
byte values, the live-monitoring conversion (process_pid_data, PID 0x0C)
agrees with the freeze-frame conversion (calculate_rpm), and the
simulated response msb=0x20, lsb=0x00 decodes to 2048. -/
theorem C9_rpm_conversion (msb lsb : Nat) (_hm : msb < 256) (_hl : lsb < 256) :
    calculate_rpm msb lsb = ((msb : ℚ) * 256 + (lsb : ℚ)) / 4 ∧
    process_pid_data 0x0C [msb, lsb, 0x00, 0x00] = calculate_rpm msb lsb ∧
    process_pid_data obd2_sim_response.pid obd2_sim_response.data = 2048 ∧
    calculate_rpm 0x20 0x00 = 2048 := by
  refine ⟨rfl, ?_, by norm_num [process_pid_data, obd2_sim_response], by
    norm_num [calculate_rpm]⟩
  simp [process_pid_data, calculate_rpm]

/-- Witness for C9 at the specified concrete input 0x20, 0x00. -/
theorem C9_rpm_conversion_witness :
    0x20 < 256 ∧ 0x00 < 256 ∧
      (calculate_rpm 0x20 0x00 = ((0x20 : ℚ) * 256 + (0x00 : ℚ)) / 4 ∧
       process_pid_data 0x0C [0x20, 0x00, 0x00, 0x00] = calculate_rpm 0x20 0x00 ∧
       process_pid_data obd2_sim_response.pid obd2_sim_response.data = 2048 ∧
       calculate_rpm 0x20 0x00 = 2048) :=
  ⟨by decide, by decide, C9_rpm_conversion 0x20 0x00 (by decide) (by decide)⟩

/-- C6 counterexample: dtc_clear_all reports success (returns 0) when the
adapter write succeeds even though the confirmation byte the ECU would
send is 0x00, not 0x44 — so the clear operation does not report success
only on the positive-response byte 0x44. -/
theorem C6_clear_counterexample :
    dtc_clear_all true true 0x00 = 0 ∧ (0x00 : Nat) ≠ 0x44 := by
  decide

/-- C6 (corrected): diag_clear_dtcs succeeds exactly when the send and the
confirmation receive succeed and the first confirmation byte is 0x44,
while dtc_clear_all succeeds exactly when the device write succeeds,
independent of any confirmation byte. -/
theorem C6_clear_semantics :
    (∀ (s r : Bool) (b : Nat),
      diag_clear_dtcs s r b = 0 ↔ (s = true ∧ r = true ∧ b = 0x44)) ∧
    (∀ (d w : Bool) (b : Nat),
      dtc_clear_all d w b = 0 ↔ (d = true ∧ w = true)) := by
  constructor
  · intro s r b
    cases s <;> cases r <;> simp [diag_clear_dtcs]
  · intro d w b
    cases d <;> cases w <;> simp [dtc_clear_all]

/-- C4 counterexample: the valid KWP frame 41 01 42 carries checksum 0x42
(the additive checksum of 41 01), yet kwp_receive_response accepts the
tampered frame 41 01 00, returning its payload instead of a checksum
error. -/
theorem C4_checksum_counterexample :
    calculate_checksum [0x41, 0x01] = 0x42 ∧
    kwp_receive_response true [0x41, 0x01, 0x00] = some [0x01, 0x00] ∧
    (0x00 : Nat) ≠ 0x42 := by
  decide

/-- C4 (corrected): the checksum is the 8-bit-truncated sum of the bytes
and recomputation over the same bytes is deterministic, but decode never
recomputes it: whether kwp_receive_response accepts a frame is unchanged
by replacing its last (checksum) byte with anything else. -/
theorem C4_checksum_semantics :
    (∀ data : List Nat, calculate_checksum data = data.sum % 256) ∧
    (∀ (ok : Bool) (b0 x y : Nat) (rest : List Nat),
      (kwp_receive_response ok (b0 :: rest ++ [x])).isSome =
        (kwp_receive_response ok (b0 :: rest ++ [y])).isSome) := by
  constructor
  · intro data
    have h := calculate_checksum_foldl data 0
    simpa [calculate_checksum] using h
  · intro ok b0 x y rest
    cases ok <;> simp [kwp_receive_response] <;> split <;> simp

/-- C3 (code_bug): protocol negotiation can never select a transport.
obd2_send_request fails whenever obd_state.initialized is unset, and
obd2_protocol_init clears the state before probing, so both the CAN probe
and the ISO 9141-2 probe fail for every adapter behaviour and the
function always returns -1 with no transport initialized (it also probes
CAN under protocol code 5, which the send switch does not handle). -/
theorem C3_negotiation_always_fails :
    ∀ (prev : ObdState) (canConnect isoConnect : Nat → Bool),
      (obd2_protocol_init_model prev true canConnect isoConnect).1 = -1 ∧
      ((obd2_protocol_init_model prev true canConnect isoConnect).2).initialized = false ∧
      (obd2_protocol_init_model prev false canConnect isoConnect).1 = -1 := by
  intro prev canConnect isoConnect
  simp [obd2_protocol_init_model, obd2_send_request_model]

/-- C7 (confirmed): every boost-control configuration whose resume
threshold is not strictly below its cut threshold is rejected by
verify_boost_parameters, and sct_verify_tuning therefore fails for it
regardless of the device read outcome. -/
theorem C7_boost_ordering_rejected (getOk : Bool) (t : SCTAdvancedTuning)
    (h : t.boostControl.safety.cutThreshold ≤ t.boostControl.safety.resumeThreshold) :
    verify_boost_parameters t.boostControl = -1 ∧ sct_verify_tuning getOk t = -1 := by
  have hb : verify_boost_parameters t.boostControl = -1 := by
    by_cases h1 : 60 < t.boostControl.maxBoost ∨ t.boostControl.maxBoost < t.boostControl.targetBoost
    · rw [verify_boost_parameters, if_pos h1]
    · rw [verify_boost_parameters, if_neg h1, if_pos h]
  refine ⟨hb, ?_⟩
  unfold sct_verify_tuning
  cases getOk
  · rfl
  · simp only [Bool.not_true, Bool.false_eq_true, if_false]
    rw [if_pos (Or.inr (by rw [hb]; decide))]

/-- Witness for C7 at a concrete configuration with cut 10 below resume 15. -/
theorem C7_boost_ordering_rejected_witness :
    (sctBadTuning.boostControl.safety.cutThreshold ≤
      sctBadTuning.boostControl.safety.resumeThreshold) ∧
    (verify_boost_parameters sctBadTuning.boostControl = -1 ∧
      sct_verify_tuning true sctBadTuning = -1) :=
  ⟨by norm_num [sctBadTuning], C7_boost_ordering_rejected true sctBadTuning (by
    norm_num [sctBadTuning])⟩

set_option maxRecDepth 8000 in
/-- C1 (code_bug): segment-then-reassemble returns the payload unchanged
for a 258-byte payload, but for a 259-byte payload the uint8_t frame
index wraps from 258 to 2, the last consecutive frame carries byte 2 of
the payload instead of byte 258, and reassembly no longer yields the
payload. -/
theorem C1_iso_tp_roundtrip_wraparound :
    (can_iso_tp_send isoTpGood).bind iso_tp_reassemble = some isoTpGood ∧
    (can_iso_tp_send isoTpBad).bind iso_tp_reassemble = some (List.replicate 259 5) ∧
    isoTpBad ≠ List.replicate 259 5 ∧
    (can_iso_tp_send [1, 2, 3]).bind iso_tp_reassemble = some [1, 2, 3] ∧
    can_iso_tp_send [1, 2, 3] = some [[3, 1, 2, 3]] := by
  decide

/-- The start state satisfies the channel invariant. -/
theorem j2534_inv_start : J2534Inv j2534_start := by
  simp [J2534Inv, j2534_start]

/-- Loading the library does not touch channel bookkeeping. -/
theorem j2534_inv_load (st : J2534State) (ok : Bool) (h : J2534Inv st) :
    J2534Inv (j2534_load_library st ok).2 := by
  obtain ⟨h0, h1, h2⟩ := h
  cases ok <;> exact ⟨h0, h1, h2⟩

/-- Disconnecting preserves the channel invariant. -/
theorem j2534_inv_disconnect (st : J2534State) (ch : Nat) (h : J2534Inv st) :
    J2534Inv (j2534_disconnect st ch).2 := by
  obtain ⟨h0, h1, h2⟩ := h
  by_cases hl : st.handleLoaded
  · by_cases hm : ch ∈ st.openChannels
    · have hc : st.currentChannel ≠ 0 := by
        intro hc0
        rw [h0 hc0] at hm
        simp at hm
      have hop := h1 hc
      have hch : ch = st.currentChannel := by
        rw [hop] at hm
        simpa using hm
      subst hch
      simp only [j2534_disconnect, hl, Bool.not_true, Bool.false_eq_true, if_false,
        if_pos hm, eq_self_iff_true, ite_true]
      refine ⟨fun _ => ?_, fun hne => absurd rfl hne, ?_⟩
      · simp [hop]
      · show (0 : Nat) < st.nextId
        omega
    · simp only [j2534_disconnect, hl, Bool.not_true, Bool.false_eq_true, if_false,
        if_neg hm]
      exact ⟨h0, h1, h2⟩
  · simp only [Bool.not_eq_true] at hl
    simp only [j2534_disconnect, hl, Bool.not_false, if_true]
    exact ⟨h0, h1, h2⟩

/-- Disconnecting the current channel empties the channel bookkeeping. -/
theorem j2534_disconnect_current (st : J2534State) (hl : st.handleLoaded = true)
    (hop : st.openChannels = [st.currentChannel]) :
    (j2534_disconnect st st.currentChannel).2 =
      {st with openChannels := [], currentChannel := 0} := by
  have hmem : st.currentChannel ∈ st.openChannels := by
    rw [hop]
    exact List.mem_singleton_self _
  simp only [j2534_disconnect, hl, Bool.not_true, Bool.false_eq_true, if_false,
    if_pos hmem, eq_self_iff_true, ite_true, hop, List.erase_cons_head]
  rw [if_pos (List.mem_singleton_self st.currentChannel)]

/-- Connecting preserves the channel invariant: any previously current
channel is disconnected before the fresh channel is opened. -/
theorem j2534_inv_connect (st : J2534State) (ok : Bool) (h : J2534Inv st) :
    J2534Inv (j2534_connect st ok).2 := by
  obtain ⟨h0, h1, h2⟩ := h
  by_cases hl : st.handleLoaded
  · by_cases hc : st.currentChannel = 0
    · cases ok with
      | false =>
        simp only [j2534_connect, hl, Bool.not_true, Bool.false_eq_true, if_false, hc,
          ne_eq, not_true_eq_false, ite_false, Bool.not_false, ite_true]
        exact ⟨h0, h1, h2⟩
      | true =>
        simp only [j2534_connect, hl, Bool.not_true, Bool.false_eq_true, if_false, hc,
          ne_eq, not_true_eq_false, ite_false, ite_true]
        refine ⟨fun hh => ?_, fun _ => ?_, ?_⟩
        · exact absurd hh (by show st.nextId ≠ 0; omega)
        · show st.nextId :: st.openChannels = [st.nextId]
          rw [h0 hc]
        · show st.nextId < st.nextId + 1
          omega
    · have hdis := j2534_disconnect_current st hl (h1 hc)
      cases ok with
      | false =>
        simp only [j2534_connect, hl, Bool.not_true, Bool.false_eq_true, if_false,
          ne_eq, hc, not_false_eq_true, ite_true, hdis, Bool.not_false]
        exact ⟨fun _ => rfl, fun hne => absurd rfl hne, by show (0 : Nat) < st.nextId; omega⟩
      | true =>
        simp only [j2534_connect, hl, Bool.not_true, Bool.false_eq_true, if_false,
          ne_eq, hc, not_false_eq_true, ite_true, hdis, Bool.not_true]
        refine ⟨fun hh => ?_, fun _ => ?_, ?_⟩
        · exact absurd hh (by show st.nextId ≠ 0; omega)
        · rfl
        · show st.nextId < st.nextId + 1
          omega
  · simp only [Bool.not_eq_true] at hl
    simp only [j2534_connect, hl, Bool.not_false, if_true]
    exact ⟨h0, h1, h2⟩

/-- Every reachable adapter state satisfies the channel invariant. -/
theorem j2534_reachable_inv (st : J2534State) (h : J2534Reachable st) : J2534Inv st := by
  induction h with
  | start => exact j2534_inv_start
  | load st1 ok _ ih => exact j2534_inv_load st1 ok ih
  | connect st1 ok _ ih => exact j2534_inv_connect st1 ok ih
  | disconnect st1 ch _ ih => exact j2534_inv_disconnect st1 ch ih

/-- C8 (confirmed): in every reachable adapter state at most one channel
is open on the device, and any open channel is exactly the tracked
current channel (a nonzero id), so no channel is leaked. -/
theorem C8_single_active_channel (st : J2534State) (h : J2534Reachable st) :
    st.openChannels.length ≤ 1 ∧
      ∀ c ∈ st.openChannels, c = st.currentChannel ∧ c ≠ 0 := by
  obtain ⟨h0, h1, h2⟩ := j2534_reachable_inv st h
  by_cases hc : st.currentChannel = 0
  · rw [h0 hc]
    exact ⟨by simp, by simp⟩
  · rw [h1 hc]
    refine ⟨by simp, ?_⟩
    intro c hcm
    simp only [List.mem_singleton] at hcm
    subst hcm
    exact ⟨rfl, hc⟩

/-- Witness for C8 at the state reached by loading the library and
connecting once. -/
theorem C8_single_active_channel_witness :
    J2534Reachable (j2534_connect (j2534_load_library j2534_start true).2 true).2 ∧
      ((j2534_connect (j2534_load_library j2534_start true).2 true).2.openChannels.length ≤ 1 ∧
        ∀ c ∈ (j2534_connect (j2534_load_library j2534_start true).2 true).2.openChannels,
          c = (j2534_connect (j2534_load_library j2534_start true).2 true).2.currentChannel ∧
            c ≠ 0) :=
  have hr : J2534Reachable (j2534_connect (j2534_load_library j2534_start true).2 true).2 :=
    J2534Reachable.connect _ true (J2534Reachable.load _ true J2534Reachable.start)
  ⟨hr, C8_single_active_channel _ hr⟩

/-- Positions shifted from the tail and reduced mod the capacity are
distinct for distinct in-range offsets. -/
theorem mod_shift_inj (cap tail i j : Nat) (hi : i < cap) (hj : j < cap)
    (h : (tail + i) % cap = (tail + j) % cap) : i = j := by
  have h3 : i % cap = j % cap :=
    Nat.ModEq.add_left_cancel (Nat.ModEq.refl tail) h
  rwa [Nat.mod_eq_of_lt hi, Nat.mod_eq_of_lt hj] at h3

/-- C10 (confirmed): log_init establishes the circular-buffer invariant
(size between 0 and capacity, head = (tail + size) mod capacity); every
log_write preserves it, never grows size beyond capacity and, when the
buffer is full, drops the oldest entry while appending the new one; and
log_read fails on an empty buffer without modifying it and otherwise
returns the oldest entry, so entries come out first-in-first-out. -/
theorem C10_log_buffer (cap : Nat) (hcap : 0 < cap) :
    LogInv (log_init cap) ∧
    (∀ buf e, LogInv buf →
      LogInv (log_write buf e) ∧
      (log_write buf e).size ≤ buf.capacity ∧
      logView (log_write buf e) =
        (if buf.size = buf.capacity then (logView buf).drop 1 else logView buf) ++ [e]) ∧
    (∀ buf, LogInv buf →
      (buf.size = 0 → log_read buf = none) ∧
      (0 < buf.size → ∃ b2, log_read buf = some ((logView buf).getD 0 0, b2) ∧
        LogInv b2 ∧ logView b2 = (logView buf).drop 1)) := by
  refine ⟨⟨Nat.zero_le _, hcap, hcap, (Nat.zero_mod cap).symm⟩, ?_, ?_⟩
  · intro buf e hinv
    obtain ⟨hs, hh, ht, hhead⟩ := hinv
    have hcappos : 0 < buf.capacity := Nat.lt_of_le_of_lt (Nat.zero_le _) hh
    by_cases hfull : buf.size < buf.capacity
    · have hw : log_write buf e = {buf with
          entries := fun i => if i = buf.head then e else buf.entries i,
          head := (buf.head + 1) % buf.capacity,
          size := buf.size + 1} := by
        simp [log_write, hfull]
      have hnefull : ¬ buf.size = buf.capacity := by omega
      rw [hw, if_neg hnefull]
      refine ⟨⟨by show buf.size + 1 ≤ buf.capacity; omega, Nat.mod_lt _ hcappos, ht, ?_⟩,
        by show buf.size + 1 ≤ buf.capacity; omega, ?_⟩
      · show (buf.head + 1) % buf.capacity = (buf.tail + (buf.size + 1)) % buf.capacity
        rw [hhead, Nat.mod_add_mod, Nat.add_assoc]
      · simp only [logView]
        rw [List.range_succ, List.map_append]
        congr 1
        · refine List.map_congr_left ?_
          intro i hi
          simp only [List.mem_range] at hi
          have hne : (buf.tail + i) % buf.capacity ≠ buf.head := by
            intro heq
            rw [hhead] at heq
            have := mod_shift_inj buf.capacity buf.tail i buf.size (by omega) (by omega) heq
            omega
          simp [hne]
        · simp only [List.map_cons, List.map_nil]
          rw [hhead]
          simp
    · have hsize : buf.size = buf.capacity := by omega
      have hw : log_write buf e = {buf with
          entries := fun i => if i = buf.head then e else buf.entries i,
          head := (buf.head + 1) % buf.capacity,
          tail := (buf.tail + 1) % buf.capacity} := by
        simp [log_write, hfull]
      have hht : buf.head = buf.tail := by
        rw [hhead, hsize, Nat.add_mod_right, Nat.mod_eq_of_lt ht]
      rw [hw, if_pos hsize]
      refine ⟨⟨by show buf.size ≤ buf.capacity; omega, Nat.mod_lt _ hcappos,
        Nat.mod_lt _ hcappos, ?_⟩, by show buf.size ≤ buf.capacity; omega, ?_⟩
      · show (buf.head + 1) % buf.capacity =
          ((buf.tail + 1) % buf.capacity + buf.size) % buf.capacity
        rw [hht, Nat.mod_add_mod, hsize, Nat.add_mod_right]
      · simp only [logView]
        obtain ⟨n, hn⟩ : ∃ n, buf.size = n + 1 := ⟨buf.size - 1, by omega⟩
        rw [hn]
        nth_rewrite 2 [List.range_succ_eq_map]
        rw [List.range_succ, List.map_append]
        simp only [List.map_cons, List.map_nil, List.drop_succ_cons, List.drop_zero]
        congr 1
        · rw [List.map_map]
          refine List.map_congr_left ?_
          intro i hi
          simp only [List.mem_range] at hi
          have e1 : ((buf.tail + 1) % buf.capacity + i) % buf.capacity =
              (buf.tail + (i + 1)) % buf.capacity := by
            rw [Nat.mod_add_mod]
            congr 1
            omega
          rw [e1]
          have hne : (buf.tail + (i + 1)) % buf.capacity ≠ buf.head := by
            intro heq
            rw [hht] at heq
            have h0 : (buf.tail + 0) % buf.capacity = buf.tail := by
              simp [Nat.mod_eq_of_lt ht]
            have := mod_shift_inj buf.capacity buf.tail (i + 1) 0 (by omega) (by omega)
              (by rw [h0]; exact heq)
            omega
          simp [hne]
        · have e2 : ((buf.tail + 1) % buf.capacity + n) % buf.capacity = buf.head := by
            rw [Nat.mod_add_mod, hht]
            have e3 : buf.tail + 1 + n = buf.tail + buf.capacity := by omega
            rw [e3, Nat.add_mod_right, Nat.mod_eq_of_lt ht]
          simp [e2]
  · intro buf hinv
    obtain ⟨hs, hh, ht, hhead⟩ := hinv
    have hcappos : 0 < buf.capacity := Nat.lt_of_le_of_lt (Nat.zero_le _) hh
    refine ⟨fun h0 => by simp [log_read, h0], fun hpos => ?_⟩
    have hne0 : ¬ buf.size = 0 := by omega
    refine ⟨{buf with tail := (buf.tail + 1) % buf.capacity, size := buf.size - 1},
      ?_, ?_, ?_⟩
    · have hview0 : (logView buf).getD 0 0 = buf.entries buf.tail := by
        obtain ⟨n, hn⟩ : ∃ n, buf.size = n + 1 := ⟨buf.size - 1, by omega⟩
        simp only [logView, hn, List.range_succ_eq_map, List.map_cons, List.getD_cons_zero]
        simp [Nat.mod_eq_of_lt ht]
      rw [hview0]
      simp [log_read, hne0]
    · refine ⟨by show buf.size - 1 ≤ buf.capacity; omega, hh, Nat.mod_lt _ hcappos, ?_⟩
      show buf.head = ((buf.tail + 1) % buf.capacity + (buf.size - 1)) % buf.capacity
      rw [Nat.mod_add_mod, hhead]
      congr 1
      omega
    · obtain ⟨n, hn⟩ : ∃ n, buf.size = n + 1 := ⟨buf.size - 1, by omega⟩
      simp only [logView, hn, Nat.add_sub_cancel]
      rw [List.range_succ_eq_map]
      rw [List.map_cons, List.drop_succ_cons, List.drop_zero, List.map_map]
      refine List.map_congr_left ?_
      intro i hi
      simp only [List.mem_range] at hi
      have e1 : ((buf.tail + 1) % buf.capacity + i) % buf.capacity =
          (buf.tail + (i + 1)) % buf.capacity := by
        rw [Nat.mod_add_mod]
        congr 1
        omega
      simp [e1]

/-- Witness for C10 at capacity 2, exercising the initial invariant and a
write into the empty buffer. -/
theorem C10_log_buffer_witness :
    0 < 2 ∧ LogInv (log_init 2) ∧
      (LogInv (log_write (log_init 2) 7) ∧
        (log_write (log_init 2) 7).size ≤ (log_init 2).capacity ∧
        logView (log_write (log_init 2) 7) =
          (if (log_init 2).size = (log_init 2).capacity
            then (logView (log_init 2)).drop 1 else logView (log_init 2)) ++ [7]) :=
  have h := C10_log_buffer 2 (by decide)
  ⟨by decide, h.1, h.2.1 (log_init 2) 7 h.1⟩

end Efi
